import Mathlib

/-!
# Verification of the CWSF (Configurable Web Scraping Framework) repository

Shallow embedding of the parts of `cwsf` needed to settle the frozen claims:

* `cwsf/config/loader.py` / `cwsf/config/schema.py` — `apply_defaults`, `DEFAULT_CONFIG`
* `cwsf/core/job.py` / `cwsf/core/queue.py` — `Job`, `PriorityJobQueue`
* `cwsf/output/sqlite_writer.py` — `SqliteWriter.write_records`
* `cwsf/engine/paginator.py` — the `should_stop` methods of the paginator classes
* `cwsf/engine/orchestrator.py` — the pagination loop of `scrape_site`
* `cwsf/engine/rate_limiter.py` — `DomainRateLimiter.execute`
* `cwsf/config/watcher.py` — `ConfigWatcher._handle_raw_event`
* `cwsf/engine/transforms.py` — `apply_transforms`

Python values decoded from YAML/JSON are modelled by the inductive type `Value`;
Python dictionaries are modelled as association lists in insertion order
(`List (String × Value)`), with lookup of the first matching key, in-place update
of an existing key and append of a new key, exactly as CPython dictionaries behave.
Machine floats appearing in the configs are represented by rationals (every float
literal in the sources is exact).  Fallible Python code is modelled with `Option`
or `Except`.
-/

/-- A decoded YAML/JSON value (`None`, `bool`, `int`, `float`, `str`, `list`, `dict`).
Dictionaries are association lists in insertion order, as in CPython. -/
inductive Value where
  | null : Value
  | bool (b : Bool) : Value
  | int (n : Int) : Value
  | float (q : ℚ) : Value
  | str (s : String) : Value
  | list (xs : List Value) : Value
  | dict (entries : List (String × Value)) : Value

/-- A Python `dict` decoded from YAML, keyed by strings. -/
abbrev Dict := List (String × Value)

/-- `d[key]` / `d.get(key)`: the value at the first matching key, if any. -/
def lookupKey {α : Type} : List (String × α) → String → Option α
  | [], _ => none
  | (k, v) :: rest, key => if k = key then some v else lookupKey rest key

/-- `key in d`. -/
def containsKey {α : Type} (d : List (String × α)) (key : String) : Bool :=
  (lookupKey d key).isSome

/-- `d[key] = v`: update in place when the key exists (keeping its position),
append at the end otherwise — CPython dict assignment. -/
def setKey {α : Type} : List (String × α) → String → α → List (String × α)
  | [], key, v => [(key, v)]
  | (k, w) :: rest, key, v =>
      if k = key then (k, v) :: rest else (k, w) :: setKey rest key v

/-- `del d[key]` on a dict whose keys are unique: drop the first binding. -/
def delKey {α : Type} : List (String × α) → String → List (String × α)
  | [], _ => []
  | (k, v) :: rest, key => if k = key then rest else (k, v) :: delKey rest key

/-! ## `cwsf/config/schema.py` — `DEFAULT_CONFIG` -/

/-- `DEFAULT_CONFIG` from `cwsf/config/schema.py`. -/
def DEFAULT_CONFIG : Dict := [
  ("version", Value.str "1.0"),
  ("method", Value.str "GET"),
  ("headers", Value.dict []),
  ("cookies", Value.dict []),
  ("authentication", Value.dict []),
  ("pagination", Value.dict [
    ("type", Value.str "none"),
    ("start", Value.int 1),
    ("max_pages", Value.int 1)]),
  ("output", Value.dict [
    ("format", Value.str "sqlite"),
    ("destination", Value.str "./output/"),
    ("mode", Value.str "append")]),
  ("rate_limit", Value.dict [
    ("delay_seconds", Value.float 1),
    ("max_concurrent", Value.int 1)]),
  ("retry", Value.dict [
    ("max_retries", Value.int 3),
    ("backoff_factor", Value.float 2)]),
  ("priority", Value.int 10),
  ("gotify", Value.dict [
    ("server_url", Value.null),
    ("app_token", Value.null),
    ("priority", Value.int 5)])]

/-! ## `cwsf/config/loader.py` — `apply_defaults` -/

/-- The inner loop of `apply_defaults`: for each `(sub_key, sub_value)` of the
default dict, insert it into the existing dict when the sub-key is absent. -/
def fillMissing (existing : Dict) (defaults : Dict) : Dict :=
  defaults.foldl (fun e kv => if containsKey e kv.1 then e else e ++ [kv]) existing

/-- One iteration of the top-level loop of `apply_defaults`, for the default
entry `kv`:  absent key → insert a (deep copy of the) default; both the default
value and the present value dicts → fill in the missing sub-keys; otherwise the
present value is kept. -/
def apply_defaults_step (resolved : Dict) (kv : String × Value) : Dict :=
  match lookupKey resolved kv.1 with
  | none => resolved ++ [kv]
  | some existing =>
    match kv.2, existing with
    | Value.dict dv, Value.dict ev =>
        setKey resolved kv.1 (Value.dict (fillMissing ev dv))
    | _, _ => resolved

/-- `apply_defaults` from `cwsf/config/loader.py` (the `copy.deepcopy` calls are
identities in a pure model). -/
def apply_defaults (config : Dict) : Dict :=
  DEFAULT_CONFIG.foldl apply_defaults_step config

/-! ### Association-list lemmas -/

theorem lookupKey_append_ne (r : Dict) (k k' : String) (v' : Value) (h : k ≠ k') :
    lookupKey (r ++ [(k', v')]) k = lookupKey r k := by
  induction r with
  | nil => simp [lookupKey, Ne.symm h]
  | cons kv rest ih =>
    obtain ⟨a, b⟩ := kv
    simp only [List.cons_append, lookupKey]
    split <;> simp [ih]

theorem lookupKey_append_missing (r : Dict) (k : String) (v : Value)
    (h : lookupKey r k = none) : lookupKey (r ++ [(k, v)]) k = some v := by
  induction r with
  | nil => simp [lookupKey]
  | cons kv rest ih =>
    obtain ⟨a, b⟩ := kv
    simp only [lookupKey] at h
    simp only [List.cons_append, lookupKey]
    split
    · simp_all
    · exact ih (by simp_all)

theorem containsKey_append_left (e l : Dict) (k : String)
    (h : containsKey e k = true) : containsKey (e ++ l) k = true := by
  induction e with
  | nil => simp [containsKey, lookupKey] at h
  | cons kv rest ih =>
    obtain ⟨a, b⟩ := kv
    simp only [containsKey, lookupKey] at h ⊢
    split
    · simp
    · simp_all [containsKey]

theorem containsKey_append_self (e : Dict) (k : String) (v : Value) :
    containsKey (e ++ [(k, v)]) k = true := by
  induction e with
  | nil => simp [containsKey, lookupKey]
  | cons kv rest ih =>
    obtain ⟨a, b⟩ := kv
    simp only [containsKey, lookupKey, List.cons_append] at ih ⊢
    split
    · simp
    · exact ih

theorem containsKey_of_mem (d : Dict) (p : String × Value) (h : p ∈ d) :
    containsKey d p.1 = true := by
  induction d with
  | nil => simp at h
  | cons kv rest ih =>
    simp only [containsKey, lookupKey]
    rcases List.mem_cons.mp h with rfl | hmem
    · simp
    · split
      · simp
      · simp_all [containsKey]

theorem lookupKey_setKey_self {α : Type} (r : List (String × α)) (k : String) (v : α) :
    lookupKey (setKey r k v) k = some v := by
  induction r with
  | nil => simp [setKey, lookupKey]
  | cons kv rest ih =>
    obtain ⟨a, b⟩ := kv
    simp only [setKey]
    split <;> simp_all [lookupKey]

theorem lookupKey_setKey_ne {α : Type} (r : List (String × α)) (k k' : String) (v : α) (h : k ≠ k') :
    lookupKey (setKey r k' v) k = lookupKey r k := by
  induction r with
  | nil => simp [setKey, lookupKey, Ne.symm h]
  | cons kv rest ih =>
    obtain ⟨a, b⟩ := kv
    simp only [setKey]
    split
    · subst_vars
      simp [lookupKey, Ne.symm h]
    · simp only [lookupKey]
      split <;> simp [ih]

theorem setKey_self (r : Dict) (k : String) (v : Value)
    (h : lookupKey r k = some v) : setKey r k v = r := by
  induction r with
  | nil => simp [lookupKey] at h
  | cons kv rest ih =>
    obtain ⟨a, b⟩ := kv
    simp only [lookupKey] at h
    simp only [setKey]
    split
    · simp_all
    · simp_all

/-! ### `fillMissing` lemmas -/

theorem containsKey_fillMissing_of (dv : Dict) (k : String) :
    ∀ ev : Dict, containsKey ev k = true → containsKey (fillMissing ev dv) k = true := by
  induction dv with
  | nil => intro ev h; simpa [fillMissing] using h
  | cons q rest ih =>
    intro ev h
    simp only [fillMissing, List.foldl_cons] at ih ⊢
    split
    · exact ih ev h
    · exact ih _ (containsKey_append_left ev [q] k h)

theorem containsKey_fillMissing_mem (dv : Dict) (p : String × Value) (hp : p ∈ dv) :
    ∀ ev : Dict, containsKey (fillMissing ev dv) p.1 = true := by
  induction dv with
  | nil => simp at hp
  | cons q rest ih =>
    intro ev
    simp only [fillMissing, List.foldl_cons] at ih ⊢
    rcases List.mem_cons.mp hp with rfl | hmem
    · split
      · exact containsKey_fillMissing_of rest p.1 ev (by assumption)
      · exact containsKey_fillMissing_of rest p.1 _ (containsKey_append_self ev p.1 p.2)
    · split
      · exact ih hmem ev
      · exact ih hmem _

theorem fillMissing_id (ev dv : Dict) (h : ∀ p ∈ dv, containsKey ev p.1 = true) :
    fillMissing ev dv = ev := by
  induction dv with
  | nil => rfl
  | cons q rest ih =>
    simp only [fillMissing, List.foldl_cons] at ih ⊢
    rw [if_pos (h q (List.mem_cons_self q rest))]
    exact ih fun p hp => h p (List.mem_cons_of_mem q hp)

/-! ### Idempotence of `apply_defaults` -/

/-- `r` already carries the defaults of the entry `kv`: the key is present and,
when both the default and the present value are dicts, every default sub-key is
present. -/
def HasDefaults (kv : String × Value) (r : Dict) : Prop :=
  match lookupKey r kv.1 with
  | none => False
  | some e =>
    match kv.2, e with
    | Value.dict dv, Value.dict ev => ∀ p ∈ dv, containsKey ev p.1 = true
    | _, _ => True

theorem hasDefaults_step_self (r : Dict) (kv : String × Value) :
    HasDefaults kv (apply_defaults_step r kv) := by
  obtain ⟨k, v⟩ := kv
  unfold apply_defaults_step HasDefaults
  cases hl : lookupKey r k with
  | none =>
    simp only
    rw [lookupKey_append_missing r k v hl]
    cases v <;> simp only
    exact fun p hp => containsKey_of_mem _ p hp
  | some e =>
    simp only
    cases v with
    | dict dv =>
      cases e with
      | dict ev =>
        simp only
        rw [lookupKey_setKey_self]
        exact fun p hp => containsKey_fillMissing_mem dv p hp ev
      | null => simp only; rw [hl]; trivial
      | bool b => simp only; rw [hl]; trivial
      | int n => simp only; rw [hl]; trivial
      | float q => simp only; rw [hl]; trivial
      | str s => simp only; rw [hl]; trivial
      | list xs => simp only; rw [hl]; trivial
    | null => simp only; rw [hl]; cases e <;> trivial
    | bool b => simp only; rw [hl]; cases e <;> trivial
    | int n => simp only; rw [hl]; cases e <;> trivial
    | float q => simp only; rw [hl]; cases e <;> trivial
    | str s => simp only; rw [hl]; cases e <;> trivial
    | list xs => simp only; rw [hl]; cases e <;> trivial

theorem hasDefaults_step_ne (r : Dict) (kv kv' : String × Value)
    (hne : kv'.1 ≠ kv.1) (h : HasDefaults kv r) :
    HasDefaults kv (apply_defaults_step r kv') := by
  unfold apply_defaults_step
  cases hl : lookupKey r kv'.1 with
  | none =>
    simp only
    unfold HasDefaults at h ⊢
    rw [lookupKey_append_ne r kv.1 kv'.1 kv'.2 (Ne.symm hne)]
    exact h
  | some e =>
    simp only
    cases hv' : kv'.2 <;> cases he : e <;> try exact h
    unfold HasDefaults at h ⊢
    rw [lookupKey_setKey_ne r kv.1 kv'.1 _ (Ne.symm hne)]
    exact h

theorem step_of_hasDefaults (r : Dict) (kv : String × Value)
    (h : HasDefaults kv r) : apply_defaults_step r kv = r := by
  obtain ⟨k, v⟩ := kv
  unfold HasDefaults at h
  unfold apply_defaults_step
  cases hl : lookupKey r k with
  | none => rw [hl] at h; exact absurd h (by simp)
  | some e =>
    rw [hl] at h
    simp only
    cases v <;> cases e <;> try rfl
    next dv ev =>
      simp only at h ⊢
      rw [fillMissing_id ev dv h]
      exact setKey_self r k (Value.dict ev) hl

theorem hasDefaults_foldl_preserve (l : List (String × Value)) (kv : String × Value) :
    ∀ r : Dict, (∀ kv' ∈ l, kv'.1 ≠ kv.1) → HasDefaults kv r →
    HasDefaults kv (l.foldl apply_defaults_step r) := by
  induction l with
  | nil => intro r _ h; exact h
  | cons q rest ih =>
    intro r hne h
    simp only [List.foldl_cons]
    exact ih _ (fun kv' hm => hne kv' (List.mem_cons_of_mem q hm))
      (hasDefaults_step_ne r kv q (hne q (List.mem_cons_self q rest)) h)

theorem hasDefaults_foldl_establish (l : List (String × Value))
    (hnd : (l.map Prod.fst).Nodup) (kv : String × Value) (hm : kv ∈ l) :
    ∀ r : Dict, HasDefaults kv (l.foldl apply_defaults_step r) := by
  induction l with
  | nil => simp at hm
  | cons q rest ih =>
    intro r
    simp only [List.map_cons, List.nodup_cons] at hnd
    simp only [List.foldl_cons]
    rcases List.mem_cons.mp hm with rfl | hmem
    · refine hasDefaults_foldl_preserve rest kv _ ?_ (hasDefaults_step_self r kv)
      intro kv' hm' heq
      exact hnd.1 (heq ▸ List.mem_map_of_mem Prod.fst hm')
    · exact ih hnd.2 hmem _

theorem foldl_id_of_hasDefaults (l : List (String × Value)) :
    ∀ r : Dict, (∀ kv ∈ l, HasDefaults kv r) → l.foldl apply_defaults_step r = r := by
  induction l with
  | nil => intro r _; rfl
  | cons q rest ih =>
    intro r h
    simp only [List.foldl_cons]
    rw [step_of_hasDefaults r q (h q (List.mem_cons_self q rest))]
    exact ih r fun kv hm => h kv (List.mem_cons_of_mem q hm)

/-- C7: `apply_defaults` is idempotent: applying it a second time changes
nothing, for every decoded config mapping. -/
theorem apply_defaults_idempotent (config : Dict) :
    apply_defaults (apply_defaults config) = apply_defaults config := by
  unfold apply_defaults
  exact foldl_id_of_hasDefaults DEFAULT_CONFIG _
    (fun kv hm => hasDefaults_foldl_establish DEFAULT_CONFIG (by decide) kv hm config)

/-! ## `cwsf/core/job.py` — `JobStatus` and `Job` -/

/-- `JobStatus` from `cwsf/core/job.py`. -/
inductive JobStatus where
  | pending
  | running
  | completed
  | failed
  | cancelled
deriving DecidableEq

/-- A `Job` dataclass instance.  `datetime` timestamps are modelled as `Nat`
instants; the `config` dict is a decoded YAML mapping. -/
structure Job where
  site_name : String
  config : Dict
  job_id : String
  priority : Int
  status : JobStatus
  created_at : Nat
  updated_at : Nat

/-- Python `int(x)` on a decoded value: ints unchanged, floats truncated toward
zero, booleans as 0/1, canonical decimal strings parsed; `None`, lists and dicts
raise (`none`). -/
def toIntV : Value → Option Int
  | Value.int n => some n
  | Value.float q => some (if 0 ≤ q then ⌊q⌋ else -⌊-q⌋)
  | Value.bool b => some (if b then 1 else 0)
  | Value.str s => s.toInt?
  | _ => none

/-- Constructing `Job(...)`: the dataclass `__init__` followed by
`__post_init__`, which derives `job_id` from `site_name` when the given id is
falsy (empty) and overrides `priority` with `int(config['priority'])` when the
config carries a non-`None` priority.  `none` models the exception raised by
`int(...)` on an unconvertible value. -/
def mkJob (site_name : String) (config : Dict) (job_id : String)
    (priority : Int) (status : JobStatus) (created_at updated_at : Nat) :
    Option Job :=
  let jid := if job_id = "" then site_name else job_id
  match lookupKey config "priority" with
  | none =>
      some ⟨site_name, config, jid, priority, status, created_at, updated_at⟩
  | some Value.null =>
      some ⟨site_name, config, jid, priority, status, created_at, updated_at⟩
  | some v =>
      (toIntV v).map fun p =>
        ⟨site_name, config, jid, p, status, created_at, updated_at⟩

/-- `Job.__eq__` (between two `Job`s): equality is decided solely by `job_id`. -/
def jobEq (j1 j2 : Job) : Bool :=
  j1.job_id == j2.job_id

/-- `Job.__hash__`: `hash(self.job_id)` — a fixed function of the `job_id`
string alone. -/
def jobHash (j : Job) : Nat :=
  (Hashable.hash j.job_id).toNat

/-- `Job.with_status`: rebuild the job through the dataclass constructor with a
new status and a fresh `updated_at` (`now`). -/
def Job.with_status (j : Job) (status : JobStatus) (now : Nat) : Option Job :=
  mkJob j.site_name j.config j.job_id j.priority status j.created_at now

/-- `Job.with_config`: `config.get('priority', self.priority)` is converted by
`int(...)` and the job is rebuilt through the dataclass constructor with the
new config. -/
def Job.with_config (j : Job) (config : Dict) (now : Nat) : Option Job :=
  let pv := match lookupKey config "priority" with
            | none => Value.int j.priority
            | some v => v
  match toIntV pv with
  | none => none
  | some p => mkJob j.site_name config j.job_id p j.status j.created_at now

/-! ## `cwsf/core/queue.py` — `PriorityJobQueue`

The `heapq` heap of `(priority, created_at, job_id)` tuples is modelled as a
list kept sorted in the lexicographic tuple order: `heappush` is ordered
insertion and `heappop` removes the head.  This is observationally equivalent
to the binary heap, whose pop always returns the least element present. -/

/-- Lexicographic comparison of `(priority, created_at, job_id)` tuples, as
Python compares them. -/
def entryLE (a b : Int × Nat × String) : Bool :=
  if a.1 < b.1 then true
  else if b.1 < a.1 then false
  else if a.2.1 < b.2.1 then true
  else if b.2.1 < a.2.1 then false
  else decide (a.2.2 ≤ b.2.2)

/-- `heapq.heappush`: ordered insertion into the sorted-list model. -/
def heapPush : List (Int × Nat × String) → (Int × Nat × String) → List (Int × Nat × String)
  | [], e => [e]
  | x :: rest, e => if entryLE e x then e :: x :: rest else x :: heapPush rest e

/-- The state of a `PriorityJobQueue`: the `_heap`, `_jobs` and `_running_jobs`
attributes. -/
structure QueueState where
  heap : List (Int × Nat × String)
  jobs : List (String × Job)
  running : List (String × Job)

/-- `PriorityJobQueue.enqueue`: update a RUNNING job in place, replace a
PENDING job without touching the heap, or register a new job and push its
entry. -/
def enqueue (s : QueueState) (job : Job) : QueueState :=
  if containsKey s.running job.job_id then
    { s with running := setKey s.running job.job_id job }
  else if containsKey s.jobs job.job_id then
    { s with jobs := setKey s.jobs job.job_id job }
  else
    { heap := heapPush s.heap (job.priority, job.created_at, job.job_id),
      jobs := setKey s.jobs job.job_id job,
      running := s.running }

/-- The `while self._heap` loop of `PriorityJobQueue.dequeue`: pop entries until
one refers to a still-present PENDING job; transition it to RUNNING.  The outer
`none` models an exception escaping `with_status`. -/
def dequeueLoop (jobs running : List (String × Job)) (now : Nat) :
    List (Int × Nat × String) → Option (Option Job × QueueState)
  | [] => some (none, ⟨[], jobs, running⟩)
  | (_pri, _ca, jid) :: rest =>
    match lookupKey jobs jid with
    | some job =>
        if job.status = JobStatus.pending then
          match job.with_status JobStatus.running now with
          | none => none
          | some rj =>
              some (some rj, ⟨rest, delKey jobs jid, setKey running jid rj⟩)
        else dequeueLoop jobs running now rest
    | none => dequeueLoop jobs running now rest

/-- `PriorityJobQueue.dequeue`. -/
def dequeue (s : QueueState) (now : Nat) : Option (Option Job × QueueState) :=
  dequeueLoop s.jobs s.running now s.heap

/-- `PriorityJobQueue.update`: replace the config of a PENDING job and, when its
priority changed, push a fresh heap entry — the stale entry is left in the
heap.  A RUNNING job's update is deferred to `_running_jobs`.  The outer `none`
models an exception escaping `with_config`. -/
def update (s : QueueState) (job_id : String) (new_config : Dict) (now : Nat) :
    Option QueueState :=
  match lookupKey s.jobs job_id with
  | some old_job =>
      match old_job.with_config new_config now with
      | none => none
      | some new_job =>
          let s' : QueueState := { s with jobs := setKey s.jobs job_id new_job }
          if new_job.priority ≠ old_job.priority then
            some { s' with
              heap := heapPush s'.heap (new_job.priority, new_job.created_at, job_id) }
          else some s'
  | none =>
      match lookupKey s.running job_id with
      | some old_job =>
          (old_job.with_config new_config now).map fun nj =>
            { s with running := setKey s.running job_id nj }
      | none => some s

/-! ## C1 — dequeue order after a priority-raising `update`

The trace: enqueue site `a` (priority 1, created 0), enqueue site `b`
(priority 5, created 1), then `update("a", {priority: 10})`, then dequeue
twice.  `update` pushes the new entry `(10, 0, "a")` but leaves the stale entry
`(1, 0, "a")` in the heap, and `dequeue` does not compare a popped entry's
priority with the job's current priority, so job `a` is returned first with
priority 10 while job `b` (priority 5) is still pending. -/

/-- The priorities of the two jobs returned by the two dequeues of the C1
trace, in order (`none` would mean an exception somewhere in the trace). -/
def c1_trace : Option (Int × Int) := do
  let ja ← mkJob "a" [("priority", Value.int 1)] "" 10 JobStatus.pending 0 0
  let jb ← mkJob "b" [("priority", Value.int 5)] "" 10 JobStatus.pending 1 1
  let s1 := enqueue ⟨[], [], []⟩ ja
  let s2 := enqueue s1 jb
  let s3 ← update s2 "a" [("priority", Value.int 10)] 2
  let (r1, s4) ← dequeue s3 3
  let j1 ← r1
  let (r2, _) ← dequeue s4 4
  let j2 ← r2
  pure (j1.priority, j2.priority)

/-- C1: the dequeue order is NOT non-decreasing in priority once `update`
raises a pending job's priority number: on the concrete trace with distinct
site names the two dequeues return priorities 10 then 5, a strict decrease.
`dequeue`'s own docstring ("Returns the highest-priority PENDING job") is
violated at the first dequeue, which returns job `a` (priority 10) while job
`b` (priority 5) is pending. -/
theorem dequeue_priority_inversion :
    c1_trace = some (10, 5) ∧ ¬ ((10 : Int) ≤ 5) := by
  constructor
  · decide
  · decide

/-! ## C10 — Job identity semantics -/

/-- C10: `Job` equality is decided solely by `job_id` (two jobs compare equal
iff their ids are equal, whatever their configs, priorities, statuses or
timestamps); the hash is a function of `job_id` alone; and a `Job` constructed
without an explicit `job_id` receives `job_id = site_name`. -/
theorem job_identity_semantics :
    (∀ j1 j2 : Job, jobEq j1 j2 = true ↔ j1.job_id = j2.job_id)
    ∧ (∀ j1 j2 : Job, j1.job_id = j2.job_id → jobHash j1 = jobHash j2)
    ∧ (∀ (site : String) (config : Dict) (priority : Int) (status : JobStatus)
        (ca ua : Nat) (j : Job),
        mkJob site config "" priority status ca ua = some j → j.job_id = site) := by
  refine ⟨fun j1 j2 => ?_, fun j1 j2 h => ?_, ?_⟩
  · simp [jobEq]
  · simp [jobHash, h]
  · intro site config priority status ca ua j h
    by_cases hs : site = ""
    · unfold mkJob at h
      subst hs
      simp only [if_pos rfl] at h
      split at h <;> first
        | (injection h with h; subst h; rfl)
        | (simp only [Option.map_eq_some'] at h
           obtain ⟨p, _, hp⟩ := h
           subst hp
           rfl)
    · unfold mkJob at h
      simp only [if_pos rfl] at h
      split at h <;> first
        | (injection h with h; subst h; rfl)
        | (simp only [Option.map_eq_some'] at h
           obtain ⟨p, _, hp⟩ := h
           subst hp
           rfl)

/-- Witness for C10 at concrete inputs: two jobs differing in everything but
`job_id` compare equal, and a job built without an id takes its site name. -/
theorem job_identity_semantics_witness :
    jobEq ⟨"sa", [], "x", 1, JobStatus.pending, 0, 0⟩
      ⟨"sb", [("k", Value.null)], "x", 7, JobStatus.running, 3, 4⟩ = true
    ∧ (⟨"sa", [], "sa", 10, JobStatus.pending, 0, 0⟩ : Job).job_id = "sa" := by
  constructor
  · exact (job_identity_semantics.1 _ _).mpr rfl
  · exact job_identity_semantics.2.2 "sa" [] 10 JobStatus.pending 0 0 _ rfl

/-! ## `cwsf/output/sqlite_writer.py` — `SqliteWriter.write_records`

A table is a list of rows; a row is a dict from column name to value.  The two
`with self.conn:` blocks of the source are two separate transactions: the
overwrite DELETE commits on its own, then the `executemany` INSERT runs in a
second transaction which alone is rolled back when an insert raises
`sqlite3.Error` (modelled by the `insertFails` flag).  The function returns the
final table state together with the Python-level result. -/

/-- A database row / a record to be written. -/
abbrev Row := Dict

/-- Errors `write_records` can raise. -/
inductive WriteError where
  | closedError
  | keyError
  | sqliteError
deriving DecidableEq

/-- Does this row's `site_name` column hold the given string? (the SQL
`WHERE site_name = ?` match; the orchestrator always binds a string). -/
def siteNameIs (row : Row) (site : String) : Bool :=
  match lookupKey row "site_name" with
  | some (Value.str t) => t = site
  | _ => false

/-- `SqliteWriter.write_records` from `cwsf/output/sqlite_writer.py`.
`closed` is the `_closed` flag, `mode` the output mode, `tableColumns` the
columns reported by `PRAGMA table_info` (in order), `table` the current rows,
`records` the batch and `insertFails` whether `executemany` raises.  Returns
the table as left on disk and the returned count or raised error. -/
def write_records (closed : Bool) (mode : String) (tableColumns : List String)
    (table : List Row) (records : List Row) (insertFails : Bool) :
    List Row × Except WriteError Nat :=
  if closed then (table, Except.error WriteError.closedError)
  else if records.isEmpty then (table, Except.ok 0)
  else
    -- overwrite mode: DELETE in its own committed transaction
    let deleted : List Row × Bool :=
      if mode = "overwrite" then
        match records.head? with
        | some r0 =>
          match lookupKey r0 "site_name" with
          | some (Value.str site) => (table.filter (fun row => !(siteNameIs row site)), true)
          | _ => (table, false)  -- records[0]['site_name'] raises KeyError
        | none => (table, false)
      else (table, true)
    if !deleted.2 then (deleted.1, Except.error WriteError.keyError)
    else
      let cols := tableColumns.erase "id"
      let newRows := records.map fun record =>
        cols.map fun col => (col, (lookupKey record col).getD Value.null)
      -- the INSERT transaction: rolled back alone on failure
      if insertFails then (deleted.1, Except.error WriteError.sqliteError)
      else (deleted.1 ++ newRows, Except.ok records.length)

/-- The C2 failing input: a table holding one existing row for site `s`. -/
def c2_table : List Row :=
  [[("site_name", Value.str "s"), ("source_url", Value.str "u0"),
    ("scrape_timestamp", Value.str "t0"), ("title", Value.str "old")]]

/-- The C2 batch: one new record for site `s`, whose insert fails. -/
def c2_records : List Row :=
  [[("site_name", Value.str "s"), ("source_url", Value.str "u1"),
    ("scrape_timestamp", Value.str "t1"), ("title", Value.str "new")]]

/-- C2: with `mode = overwrite`, the DELETE is committed in its own
transaction before the INSERT transaction starts, so when an insert fails the
batch's error propagates but the already-deleted rows are NOT restored: from a
table of one row for site `s` the writer ends with an empty table, not the
unchanged table the claim (and the function's own docstring) require. -/
theorem write_records_overwrite_not_atomic :
    write_records false "overwrite"
        ["id", "site_name", "source_url", "scrape_timestamp", "title"]
        c2_table c2_records true
      = ([], Except.error WriteError.sqliteError)
    ∧ c2_table.length = 1 := by
  exact ⟨rfl, rfl⟩

/-! ## `cwsf/engine/paginator.py` — the `should_stop` methods

`max_pages` and `start` are Python ints read from the pagination config
(`max_pages ≥ 1` and `start ≥ 0` for schema-validated configs);
`current_page_number` counts fetched pages, `num_records` is
`len(raw_records)` of the current page. -/

/-- `BasePaginator.should_stop`. -/
def BasePaginator.should_stop (max_pages current_page_number : Int)
    (num_records : Nat) : Bool :=
  if current_page_number ≥ max_pages then true
  else if num_records = 0 then true
  else false

/-- `NoPaginator.should_stop`. -/
def NoPaginator.should_stop (_max_pages _current_page_number : Int)
    (_num_records : Nat) : Bool :=
  true

/-- `UrlPatternPaginator` does not override `should_stop`: it inherits
`BasePaginator.should_stop`. -/
def UrlPatternPaginator.should_stop (max_pages current_page_number : Int)
    (num_records : Nat) : Bool :=
  BasePaginator.should_stop max_pages current_page_number num_records

/-- `NextButtonPaginator` does not override `should_stop`: it inherits
`BasePaginator.should_stop`. -/
def NextButtonPaginator.should_stop (max_pages current_page_number : Int)
    (num_records : Nat) : Bool :=
  BasePaginator.should_stop max_pages current_page_number num_records

/-- `ScrollPaginator.should_stop`: only the scroll-iteration bound is checked;
the record count is ignored. -/
def ScrollPaginator.should_stop (max_pages current_page_number : Int)
    (_num_records : Nat) : Bool :=
  current_page_number ≥ max_pages

/-- C3 counterexample: the scroll paginator with `max_pages = 2` after one
page that produced zero records does NOT stop, contradicting the claim that
every paginator variant stops on zero records. -/
theorem scroll_ignores_zero_records :
    ScrollPaginator.should_stop 2 1 0 = false := by
  decide

/-- C3 (amended): the none, url_pattern and next_button paginators stop
whenever the last page produced zero records; the scroll paginator ignores the
record count and stops exactly when the scroll-iteration count has reached
`max_pages`. -/
theorem paginators_stop_on_zero_records_except_scroll
    (mp p : Int) (n : Nat) :
    BasePaginator.should_stop mp p 0 = true
    ∧ UrlPatternPaginator.should_stop mp p 0 = true
    ∧ NextButtonPaginator.should_stop mp p 0 = true
    ∧ NoPaginator.should_stop mp p n = true
    ∧ ScrollPaginator.should_stop mp p n = decide (p ≥ mp) := by
  refine ⟨?_, ?_, ?_, rfl, rfl⟩ <;>
    simp [BasePaginator.should_stop, UrlPatternPaginator.should_stop,
      NextButtonPaginator.should_stop]

/-! ## `cwsf/engine/rate_limiter.py` — `DomainRateLimiter.execute`

Each attempt either returns a response (whose `status_code` attribute may be
absent, hence `Option Int`) or raises a transport-level exception (identified
by a numeric tag).  `execute` is modelled as a pure recursion over the
remaining retry budget, producing the sequence of externally visible steps
(back-off waits, rate-limit gate acquisitions, calls of the caller-supplied
fetch) together with the final outcome. -/

/-- What the caller-supplied `request_callable` does on a given (0-indexed)
attempt. -/
inductive AttemptOutcome where
  | ok (status : Option Int)
  | exc (e : Nat)
deriving DecidableEq

/-- `RETRYABLE_STATUS_CODES` from `cwsf/engine/rate_limiter.py`. -/
def RETRYABLE_STATUS_CODES : List Int := [429, 500, 502, 503, 504]

/-- `status_code in RETRYABLE_STATUS_CODES` (an absent status is not
retryable). -/
def retryable (s : Option Int) : Bool :=
  match s with
  | some c => RETRYABLE_STATUS_CODES.contains c
  | none => false

/-- An externally visible step of `execute`: a back-off sleep, an acquisition
of the rate-limit gate, or an invocation of the fetch. -/
inductive Step where
  | wait (seconds : ℚ)
  | acquireGate
  | call (attempt : Nat)
deriving DecidableEq

/-- The outcome of `execute`: the response of attempt `attempt` returned
normally, or the exception of attempt `attempt` re-raised. -/
inductive ExecResult where
  | returned (attempt : Nat) (status : Option Int)
  | raised (attempt : Nat) (e : Nat)
deriving DecidableEq

/-- 1 + the index of the final attempt: how many times the fetch ran. -/
def attemptsMade : ExecResult → Nat
  | ExecResult.returned a _ => a + 1
  | ExecResult.raised a _ => a + 1

/-- The body of `execute`'s `for attempt in range(max_retries + 1)` loop,
starting at attempt `a` with `remaining` further iterations allowed
(`remaining = max_retries - a`).  Attempt `a > 0` first sleeps
`backoff_factor ** a`, then the rate-limit gate is acquired and the fetch
runs.  A retryable status or an exception continues when iterations remain;
otherwise the last response is returned / the last exception re-raised. -/
def executeAux (attempts : Nat → AttemptOutcome) (backoff : ℚ) :
    Nat → Nat → List Step × ExecResult
  | a, remaining =>
    let pre := (if 0 < a then [Step.wait (backoff ^ a)] else [])
      ++ [Step.acquireGate, Step.call a]
    match attempts a with
    | AttemptOutcome.ok s =>
        if retryable s then
          match remaining with
          | r + 1 =>
              let next := executeAux attempts backoff (a + 1) r
              (pre ++ next.1, next.2)
          | 0 => (pre, ExecResult.returned a s)
        else (pre, ExecResult.returned a s)
    | AttemptOutcome.exc e =>
        match remaining with
        | r + 1 =>
            let next := executeAux attempts backoff (a + 1) r
            (pre ++ next.1, next.2)
        | 0 => (pre, ExecResult.raised a e)

/-- `DomainRateLimiter.execute` with `max_retries = m`. -/
def execute (attempts : Nat → AttemptOutcome) (backoff : ℚ) (m : Nat) :
    List Step × ExecResult :=
  executeAux attempts backoff 0 m

/-- The visible steps of one attempt: a back-off wait (for retries only), the
gate acquisition, the fetch call. -/
def attemptBlock (backoff : ℚ) (a : Nat) : List Step :=
  (if 0 < a then [Step.wait (backoff ^ a)] else [])
    ++ [Step.acquireGate, Step.call a]

theorem executeAux_ok_nonretry {attempts : Nat → AttemptOutcome} {backoff : ℚ}
    {a : Nat} {s : Option Int} (r : Nat)
    (h : attempts a = AttemptOutcome.ok s) (hr : retryable s = false) :
    executeAux attempts backoff a r = (attemptBlock backoff a, ExecResult.returned a s) := by
  cases r <;> (unfold executeAux; rw [h]; simp [hr, attemptBlock])

theorem executeAux_ok_retry_zero {attempts : Nat → AttemptOutcome} {backoff : ℚ}
    {a : Nat} {s : Option Int}
    (h : attempts a = AttemptOutcome.ok s) (hr : retryable s = true) :
    executeAux attempts backoff a 0 = (attemptBlock backoff a, ExecResult.returned a s) := by
  unfold executeAux; rw [h]; simp [hr, attemptBlock]

theorem executeAux_ok_retry_succ {attempts : Nat → AttemptOutcome} {backoff : ℚ}
    {a : Nat} {s : Option Int} (r : Nat)
    (h : attempts a = AttemptOutcome.ok s) (hr : retryable s = true) :
    executeAux attempts backoff a (r + 1)
      = (attemptBlock backoff a ++ (executeAux attempts backoff (a + 1) r).1,
         (executeAux attempts backoff (a + 1) r).2) := by
  conv_lhs => unfold executeAux
  rw [h]; simp [hr, attemptBlock]

theorem executeAux_exc_zero {attempts : Nat → AttemptOutcome} {backoff : ℚ}
    {a : Nat} {e : Nat} (h : attempts a = AttemptOutcome.exc e) :
    executeAux attempts backoff a 0 = (attemptBlock backoff a, ExecResult.raised a e) := by
  unfold executeAux; rw [h]; simp [attemptBlock]

theorem executeAux_exc_succ {attempts : Nat → AttemptOutcome} {backoff : ℚ}
    {a : Nat} {e : Nat} (r : Nat) (h : attempts a = AttemptOutcome.exc e) :
    executeAux attempts backoff a (r + 1)
      = (attemptBlock backoff a ++ (executeAux attempts backoff (a + 1) r).1,
         (executeAux attempts backoff (a + 1) r).2) := by
  conv_lhs => unfold executeAux
  rw [h]; simp [attemptBlock]

theorem executeAux_attempts_bounds (attempts : Nat → AttemptOutcome)
    (backoff : ℚ) :
    ∀ r a, a + 1 ≤ attemptsMade (executeAux attempts backoff a r).2
      ∧ attemptsMade (executeAux attempts backoff a r).2 ≤ a + r + 1 := by
  intro r
  induction r with
  | zero =>
    intro a
    cases hja : attempts a with
    | ok s =>
      cases hr : retryable s
      · rw [executeAux_ok_nonretry 0 hja hr]; simp [attemptsMade]
      · rw [executeAux_ok_retry_zero hja hr]; simp [attemptsMade]
    | exc e => rw [executeAux_exc_zero hja]; simp [attemptsMade]
  | succ r ih =>
    intro a
    cases hja : attempts a with
    | ok s =>
      cases hr : retryable s
      · rw [executeAux_ok_nonretry (r + 1) hja hr]; simp [attemptsMade]
      · rw [executeAux_ok_retry_succ r hja hr]
        dsimp only
        have h1 := (ih (a + 1)).1
        have h2 := (ih (a + 1)).2
        omega
    | exc e =>
      rw [executeAux_exc_succ r hja]
      dsimp only
      have h1 := (ih (a + 1)).1
      have h2 := (ih (a + 1)).2
      omega

theorem executeAux_trace_shape (attempts : Nat → AttemptOutcome) (backoff : ℚ) :
    ∀ r a, (executeAux attempts backoff a r).1
      = (List.range' a (attemptsMade (executeAux attempts backoff a r).2 - a)).flatMap
          (attemptBlock backoff) := by
  intro r
  induction r with
  | zero =>
    intro a
    cases hja : attempts a with
    | ok s =>
      cases hr : retryable s
      · rw [executeAux_ok_nonretry 0 hja hr]
        simp [attemptsMade, List.range']
      · rw [executeAux_ok_retry_zero hja hr]
        simp [attemptsMade, List.range']
    | exc e =>
      rw [executeAux_exc_zero hja]
      simp [attemptsMade, List.range']
  | succ r ih =>
    intro a
    cases hja : attempts a with
    | ok s =>
      cases hr : retryable s
      · rw [executeAux_ok_nonretry (r + 1) hja hr]
        simp [attemptsMade, List.range']
      · rw [executeAux_ok_retry_succ r hja hr]
        have hlow := (executeAux_attempts_bounds attempts backoff r (a + 1)).1
        simp only
        rw [show attemptsMade (executeAux attempts backoff (a + 1) r).2 - a
              = (attemptsMade (executeAux attempts backoff (a + 1) r).2 - (a + 1)) + 1
            by omega]
        rw [List.range'_succ]
        simp [ih (a + 1)]
    | exc e =>
      rw [executeAux_exc_succ r hja]
      have hlow := (executeAux_attempts_bounds attempts backoff r (a + 1)).1
      simp only
      rw [show attemptsMade (executeAux attempts backoff (a + 1) r).2 - a
            = (attemptsMade (executeAux attempts backoff (a + 1) r).2 - (a + 1)) + 1
          by omega]
      rw [List.range'_succ]
      simp [ih (a + 1)]

theorem executeAux_immediate_return (attempts : Nat → AttemptOutcome)
    (backoff : ℚ) :
    ∀ r a j s, a ≤ j → attempts j = AttemptOutcome.ok s → retryable s = false →
      j < attemptsMade (executeAux attempts backoff a r).2 →
      (executeAux attempts backoff a r).2 = ExecResult.returned j s
      ∧ attemptsMade (executeAux attempts backoff a r).2 = j + 1 := by
  intro r
  induction r with
  | zero =>
    intro a j s haj hj hs hlt
    cases hja : attempts a with
    | ok s' =>
      cases hr : retryable s'
      · rw [executeAux_ok_nonretry 0 hja hr] at hlt ⊢
        simp only [attemptsMade] at hlt ⊢
        have : j = a := by omega
        subst this
        rw [hj] at hja; injection hja with h; subst h
        exact ⟨rfl, rfl⟩
      · rw [executeAux_ok_retry_zero hja hr] at hlt ⊢
        simp only [attemptsMade] at hlt ⊢
        have : j = a := by omega
        subst this
        rw [hj] at hja; injection hja with h; subst h
        rw [hs] at hr; exact absurd hr (by simp)
    | exc e =>
      rw [executeAux_exc_zero hja] at hlt ⊢
      simp only [attemptsMade] at hlt
      have : j = a := by omega
      subst this
      rw [hj] at hja; exact absurd hja (by simp)
  | succ r ih =>
    intro a j s haj hj hs hlt
    cases hja : attempts a with
    | ok s' =>
      cases hr : retryable s'
      · rw [executeAux_ok_nonretry (r + 1) hja hr] at hlt ⊢
        simp only [attemptsMade] at hlt ⊢
        have : j = a := by omega
        subst this
        rw [hj] at hja; injection hja with h; subst h
        exact ⟨rfl, rfl⟩
      · rw [executeAux_ok_retry_succ r hja hr] at hlt ⊢
        rcases Nat.lt_or_ge a j with haj' | haj'
        · exact ih (a + 1) j s haj' hj hs hlt
        · have : j = a := by omega
          subst this
          rw [hj] at hja; injection hja with h; subst h
          rw [hs] at hr; exact absurd hr (by simp)
    | exc e =>
      rw [executeAux_exc_succ r hja] at hlt ⊢
      rcases Nat.lt_or_ge a j with haj' | haj'
      · exact ih (a + 1) j s haj' hj hs hlt
      · have : j = a := by omega
        subst this
        rw [hj] at hja; exact absurd hja (by simp)

/-- C4: the retry wrapper calls the fetch at most `max_retries + 1` times; its
step trace is exactly one block per attempt, where the block of retry attempt
`k ≥ 1` starts with a `backoff_factor ^ k` wait followed by the rate-limit
gate acquisition and the call; and an attempt that returns a non-retryable
status (not in {429, 500, 502, 503, 504}) and raised no exception is the last
one and its result is returned. -/
theorem execute_retry_discipline (attempts : Nat → AttemptOutcome)
    (backoff : ℚ) (m : Nat) :
    attemptsMade (execute attempts backoff m).2 ≤ m + 1
    ∧ (execute attempts backoff m).1
        = (List.range (attemptsMade (execute attempts backoff m).2)).flatMap
            (attemptBlock backoff)
    ∧ ∀ j s, attempts j = AttemptOutcome.ok s → retryable s = false →
        j < attemptsMade (execute attempts backoff m).2 →
        (execute attempts backoff m).2 = ExecResult.returned j s
        ∧ attemptsMade (execute attempts backoff m).2 = j + 1 := by
  refine ⟨?_, ?_, ?_⟩
  · simpa using (executeAux_attempts_bounds attempts backoff m 0).2
  · have h := executeAux_trace_shape attempts backoff m 0
    simpa [execute, List.range_eq_range'] using h
  · intro j s hj hs hlt
    exact executeAux_immediate_return attempts backoff m 0 j s (Nat.zero_le j) hj hs hlt

/-- Witness for C4 at a concrete run: attempt 0 gets status 503 (retryable),
attempt 1 gets 200 (non-retryable) and is returned immediately after 2 of the
allowed 4 calls. -/
theorem execute_retry_discipline_witness :
    (execute (fun a => if a = 0 then AttemptOutcome.ok (some 503)
        else AttemptOutcome.ok (some 200)) 2 3).2
      = ExecResult.returned 1 (some 200)
    ∧ attemptsMade (execute (fun a => if a = 0 then AttemptOutcome.ok (some 503)
        else AttemptOutcome.ok (some 200)) 2 3).2 = 2 := by
  exact (execute_retry_discipline
      (fun a => if a = 0 then AttemptOutcome.ok (some 503)
        else AttemptOutcome.ok (some 200)) 2 3).2.2
    1 (some 200) (by decide) (by decide) (by decide)

theorem executeAux_all_retryable (attempts : Nat → AttemptOutcome)
    (backoff : ℚ) (st : Nat → Option Int) :
    ∀ r a, (∀ i, a ≤ i → i ≤ a + r →
        attempts i = AttemptOutcome.ok (st i) ∧ retryable (st i) = true) →
      (executeAux attempts backoff a r).2 = ExecResult.returned (a + r) (st (a + r)) := by
  intro r
  induction r with
  | zero =>
    intro a h
    obtain ⟨h1, h2⟩ := h a (Nat.le_refl a) (Nat.le_refl a)
    rw [executeAux_ok_retry_zero h1 h2]
    simp
  | succ r ih =>
    intro a h
    obtain ⟨h1, h2⟩ := h a (Nat.le_refl a) (by omega)
    rw [executeAux_ok_retry_succ r h1 h2]
    have := ih (a + 1) (fun i hi1 hi2 => h i (by omega) (by omega))
    dsimp only
    rw [this, show a + (r + 1) = a + 1 + r by omega]

theorem executeAux_all_raise (attempts : Nat → AttemptOutcome)
    (backoff : ℚ) (ex : Nat → Nat) :
    ∀ r a, (∀ i, a ≤ i → i ≤ a + r → attempts i = AttemptOutcome.exc (ex i)) →
      (executeAux attempts backoff a r).2 = ExecResult.raised (a + r) (ex (a + r)) := by
  intro r
  induction r with
  | zero =>
    intro a h
    rw [executeAux_exc_zero (h a (Nat.le_refl a) (Nat.le_refl a))]
    simp
  | succ r ih =>
    intro a h
    rw [executeAux_exc_succ r (h a (Nat.le_refl a) (by omega))]
    have := ih (a + 1) (fun i hi1 hi2 => h i (by omega) (by omega))
    dsimp only
    rw [this, show a + (r + 1) = a + 1 + r by omega]

/-- C5: when every one of the `max_retries + 1` attempts yields a retryable
HTTP status, the last response is returned normally (no exception); when every
attempt raises a transport-level exception, the last exception is re-raised. -/
theorem execute_exhaustion (attempts : Nat → AttemptOutcome) (backoff : ℚ)
    (m : Nat) (st : Nat → Option Int) (ex : Nat → Nat) :
    ((∀ i, i ≤ m →
        attempts i = AttemptOutcome.ok (st i) ∧ retryable (st i) = true) →
      (execute attempts backoff m).2 = ExecResult.returned m (st m))
    ∧ ((∀ i, i ≤ m → attempts i = AttemptOutcome.exc (ex i)) →
      (execute attempts backoff m).2 = ExecResult.raised m (ex m)) := by
  constructor
  · intro h
    have := executeAux_all_retryable attempts backoff st m 0
      (fun i hi1 hi2 => h i (by omega))
    simpa [execute] using this
  · intro h
    have := executeAux_all_raise attempts backoff ex m 0
      (fun i hi1 hi2 => h i (by omega))
    simpa [execute] using this

/-- Witness for C5 at concrete runs with `max_retries = 2`: three straight 429
responses end with the last response returned; three straight exceptions end
with the last exception re-raised. -/
theorem execute_exhaustion_witness :
    (execute (fun _ => AttemptOutcome.ok (some 429)) 2 2).2
      = ExecResult.returned 2 (some 429)
    ∧ (execute (fun _ => AttemptOutcome.exc 7) 2 2).2 = ExecResult.raised 2 7 := by
  constructor
  · exact (execute_exhaustion (fun _ => AttemptOutcome.ok (some 429)) 2 2
      (fun _ => some 429) (fun _ => 0)).1 (fun i _ => ⟨rfl, by decide⟩)
  · exact (execute_exhaustion (fun _ => AttemptOutcome.exc 7) 2 2
      (fun _ => none) (fun _ => 7)).2 (fun i _ => rfl)

/-! ## Python `str.replace` on character lists

`cwsf` substitutes the `url_pattern` page placeholder with
`base_url.replace(placeholder, str(target_page))`.  Python's `str.replace`
substitutes every non-overlapping occurrence left to right; it is embedded
here over character lists (for the non-empty patterns cwsf uses — a
placeholder always contains its surrounding braces). -/

/-- Replace every non-overlapping occurrence of the non-empty pattern
`p :: pat` by `rep`, scanning left to right.  The recursion is driven by a
fuel counter so that the function reduces definitionally; every step consumes
at least one character, so `fuel = l.length` always suffices. -/
def replaceCharsAux (p : Char) (pat rep : List Char) : Nat → List Char → List Char
  | 0, l => l
  | _ + 1, [] => []
  | fuel + 1, c :: rest =>
    if (p :: pat).isPrefixOf (c :: rest) then
      rep ++ replaceCharsAux p pat rep fuel (List.drop pat.length rest)
    else c :: replaceCharsAux p pat rep fuel rest

/-- Replace every non-overlapping occurrence of `p :: pat` by `rep` in `l`. -/
def replaceChars (p : Char) (pat rep : List Char) (l : List Char) : List Char :=
  replaceCharsAux p pat rep l.length l

/-- Python `s.replace(pat, rep)` for the non-empty patterns used by the
paginator (an empty pattern does not occur: the placeholder contains braces). -/
def pyReplace (s pat rep : String) : String :=
  match pat.data with
  | [] => s
  | p :: ps => String.mk (replaceChars p ps rep.data s.data)

theorem replaceCharsAux_ne_nil (p : Char) (pat rep : List Char) (fuel : Nat)
    (l : List Char) (hl : l ≠ []) (hfuel : 0 < fuel) (hrep : rep ≠ []) :
    replaceCharsAux p pat rep fuel l ≠ [] := by
  cases fuel with
  | zero => omega
  | succ fuel =>
    cases l with
    | nil => exact absurd rfl hl
    | cons c rest =>
      unfold replaceCharsAux
      split
      · simp [hrep]
      · simp

theorem replaceChars_ne_nil (p : Char) (pat rep : List Char) (l : List Char)
    (hl : l ≠ []) (hrep : rep ≠ []) : replaceChars p pat rep l ≠ [] := by
  apply replaceCharsAux_ne_nil p pat rep l.length l hl _ hrep
  cases l with
  | nil => exact absurd rfl hl
  | cons c rest => simp

theorem toDigitsCore_length_ge (b : Nat) :
    ∀ f n ds, ds.length ≤ (Nat.toDigitsCore b f n ds).length := by
  intro f
  induction f with
  | zero => intro n ds; simp [Nat.toDigitsCore]
  | succ f ih =>
    intro n ds
    unfold Nat.toDigitsCore
    dsimp only
    split
    · simp
    · exact Nat.le_trans (by simp) (ih (n / b) (Nat.digitChar (n % b) :: ds))

theorem repr_data_ne_nil (n : Nat) : (Nat.repr n).data ≠ [] := by
  have h : 1 ≤ (Nat.toDigitsCore 10 (n + 1) n []).length := by
    unfold Nat.toDigitsCore
    dsimp only
    split
    · simp
    · exact Nat.le_trans (by simp) (toDigitsCore_length_ge 10 n (n / 10) [Nat.digitChar (n % 10)])
  intro hcon
  have : (Nat.repr n).data = Nat.toDigitsCore 10 (n + 1) n [] := by
    simp [Nat.repr, Nat.toDigits, List.asString]
  rw [this] at hcon
  rw [hcon] at h
  simp at h

theorem pyReplace_data_ne_nil (s pat rep : String) (hs : s.data ≠ [])
    (hrep : rep.data ≠ []) : (pyReplace s pat rep).data ≠ [] := by
  unfold pyReplace
  cases hp : pat.data with
  | nil => exact hs
  | cons p ps => exact replaceChars_ne_nil p ps rep.data s.data hs hrep

theorem pyReplace_repr_ne_empty (s pat : String) (n : Nat) (hs : s ≠ "") :
    pyReplace s pat (Nat.repr n) ≠ "" := by
  intro hcon
  have hsd : s.data ≠ [] := fun hd => hs (by
    have := congrArg String.mk hd
    simpa using this)
  have := pyReplace_data_ne_nil s pat (Nat.repr n) hsd (repr_data_ne_nil n)
  rw [hcon] at this
  simp at this

/-! ## `cwsf/engine/paginator.py` — `UrlPatternPaginator.get_next_url` and the
`scrape_site` pagination loop of `cwsf/engine/orchestrator.py`

Page numbers, `start` and `max_pages` are Python ints; for schema-validated
configs they are non-negative (`start ≥ 0`, `max_pages ≥ 1`) and are modelled
as `Nat`.  Each successful fetch is a `Page` (status code and the number of
records parsed from it), indexed by fetch order. -/

/-- `self.placeholder`: the literal brace-delimited parameter. -/
def UrlPatternPaginator.placeholder (param : String) : String :=
  "\x7b" ++ param ++ "\x7d"

/-- `UrlPatternPaginator.get_next_url`: the next target page is
`start + current_page_number`; `None` once `start + max_pages` is reached,
otherwise the base URL with the placeholder substituted. -/
def UrlPatternPaginator.get_next_url (base_url param : String)
    (start_page max_pages current_page_number : Nat) : Option String :=
  let target_page := start_page + current_page_number
  if start_page + max_pages ≤ target_page then none
  else some (pyReplace base_url (UrlPatternPaginator.placeholder param)
    (Nat.repr target_page))

/-- The outcome of one (non-raising) fetch: response status and the number of
records the parser extracted from the page body. -/
structure Page where
  status : Int
  numRecords : Nat

/-- The `while current_url:` loop of `scrape_site` specialized to a
`url_pattern` paginator: fetch, record the URL, stop on an HTTP error status,
stop when `should_stop` says so, else follow `get_next_url`.  `pages i` is the
`i`-th fetch (0-based); `fuel` bounds the iterations (the loop itself stops
after at most `max_pages` fetches). -/
def scrapeLoop (base_url param : String) (s m : Nat) (pages : Nat → Page) :
    Nat → Option String → Nat → List String → List String
  | 0, _, _, acc => acc
  | _ + 1, none, _, acc => acc
  | fuel + 1, some u, currentPage, acc =>
    if u = "" then acc
    else
      let pg := pages acc.length
      let acc' := acc ++ [u]
      if 400 ≤ pg.status then acc'
      else if UrlPatternPaginator.should_stop (m : Int) (currentPage : Int)
          pg.numRecords then acc'
      else
        scrapeLoop base_url param s m pages fuel
          (UrlPatternPaginator.get_next_url base_url param s m currentPage)
          (currentPage + 1) acc'

/-- The sequence of URLs fetched by `scrape_site` for a `url_pattern` config:
the initial URL substitutes `start`, then the loop runs from `current_page = 1`. -/
def fetchedUrls (base_url param : String) (s m : Nat) (pages : Nat → Page) :
    List String :=
  scrapeLoop base_url param s m pages (m + 1)
    (some (pyReplace base_url (UrlPatternPaginator.placeholder param) (Nat.repr s)))
    1 []

theorem scrapeLoop_reaches (base_url param : String) (s m : Nat)
    (pages : Nat → Page) (K : Nat) (hbase : base_url ≠ "")
    (hK1 : 1 ≤ K) (hKm : K ≤ m)
    (H1 : ∀ i, i + 1 < K → 0 < (pages i).numRecords)
    (H2 : K = m ∨ (pages (K - 1)).numRecords = 0)
    (hstatus : ∀ i, i < K → (pages i).status < 400) :
    ∀ fuel j, 1 ≤ j → j ≤ K → m + 1 - j ≤ fuel →
      scrapeLoop base_url param s m pages fuel
        (some (pyReplace base_url (UrlPatternPaginator.placeholder param)
          (Nat.repr (s + (j - 1)))))
        j
        ((List.range (j - 1)).map (fun t =>
          pyReplace base_url (UrlPatternPaginator.placeholder param)
            (Nat.repr (s + t))))
      = (List.range K).map (fun t =>
          pyReplace base_url (UrlPatternPaginator.placeholder param)
            (Nat.repr (s + t))) := by
  intro fuel
  induction fuel with
  | zero =>
    intro j hj1 hjK hfuel
    omega
  | succ fuel ih =>
    intro j hj1 hjK hfuel
    have hu : pyReplace base_url (UrlPatternPaginator.placeholder param)
        (Nat.repr (s + (j - 1))) ≠ "" :=
      pyReplace_repr_ne_empty base_url (UrlPatternPaginator.placeholder param)
        (s + (j - 1)) hbase
    unfold scrapeLoop
    rw [if_neg hu]
    dsimp only
    have hlen : ((List.range (j - 1)).map (fun t =>
        pyReplace base_url (UrlPatternPaginator.placeholder param)
          (Nat.repr (s + t)))).length = j - 1 := by
      simp
    rw [hlen]
    have hst : ¬ (400 ≤ (pages (j - 1)).status) := by
      have := hstatus (j - 1) (by omega)
      omega
    rw [if_neg hst]
    have hacc : (List.range (j - 1)).map (fun t =>
          pyReplace base_url (UrlPatternPaginator.placeholder param)
            (Nat.repr (s + t)))
        ++ [pyReplace base_url (UrlPatternPaginator.placeholder param)
            (Nat.repr (s + (j - 1)))]
        = (List.range j).map (fun t =>
            pyReplace base_url (UrlPatternPaginator.placeholder param)
              (Nat.repr (s + t))) := by
      rw [show j = (j - 1) + 1 by omega, List.range_succ]
      simp
    rcases Nat.lt_or_ge j K with hjlt | hjge
    · -- j < K: the loop continues
      have hjm : j < m := by omega
      have hstop : UrlPatternPaginator.should_stop (m : Int) (j : Int)
          (pages (j - 1)).numRecords = false := by
        have hrec := H1 (j - 1) (by omega)
        simp only [UrlPatternPaginator.should_stop, BasePaginator.should_stop]
        rw [if_neg (by exact_mod_cast by omega), if_neg (by omega)]
      rw [hstop]
      simp only [Bool.false_eq_true, if_false]
      have hnext : UrlPatternPaginator.get_next_url base_url param s m j
          = some (pyReplace base_url (UrlPatternPaginator.placeholder param)
              (Nat.repr (s + j))) := by
        unfold UrlPatternPaginator.get_next_url
        rw [if_neg (by omega)]
      rw [hacc, hnext]
      have := ih (j + 1) (by omega) (by omega) (by omega)
      rw [show j + 1 - 1 = j by omega] at this
      exact this
    · -- j = K: the loop stops here, with the K-th URL recorded
      have hjK' : j = K := by omega
      subst hjK'
      by_cases hm : (j : Int) ≥ (m : Int)
      · have hstop : UrlPatternPaginator.should_stop (m : Int) (j : Int)
            (pages (j - 1)).numRecords = true := by
          simp only [UrlPatternPaginator.should_stop, BasePaginator.should_stop]
          rw [if_pos hm]
        rw [hstop]
        simp only [if_true]
        exact hacc
      · have hrec0 : (pages (j - 1)).numRecords = 0 := by
          rcases H2 with hKm' | hz
          · exfalso
            apply hm
            exact_mod_cast Nat.le_of_eq hKm'.symm
          · exact hz
        have hstop : UrlPatternPaginator.should_stop (m : Int) (j : Int)
            (pages (j - 1)).numRecords = true := by
          simp only [UrlPatternPaginator.should_stop, BasePaginator.should_stop]
          rw [if_neg hm, if_pos hrec0]
        rw [hstop]
        simp only [if_true]
        exact hacc

/-- C6: for a `url_pattern` config (validated: `max_pages ≥ 1`) with parameter
`param`, start `s` and `max_pages = m`, when every fetch succeeds
(status < 400) the pipeline fetches exactly the base URL with the
`{param}` placeholder replaced by `s, s+1, …`: all `m` substituted URLs when
every page yields records, and exactly the first `k` when page `k` (1-based,
`k ≤ m`) is the first to yield zero records. -/
theorem url_pattern_fetch_sequence (base_url param : String) (s m : Nat)
    (pages : Nat → Page) (hm : 1 ≤ m) (hbase : base_url ≠ "")
    (hstatus : ∀ i, i < m → (pages i).status < 400) :
    ((∀ i, i < m → 0 < (pages i).numRecords) →
      fetchedUrls base_url param s m pages
        = (List.range m).map (fun t =>
            pyReplace base_url (UrlPatternPaginator.placeholder param)
              (Nat.repr (s + t))))
    ∧ (∀ k, 1 ≤ k → k ≤ m → (∀ i, i + 1 < k → 0 < (pages i).numRecords) →
        (pages (k - 1)).numRecords = 0 →
        fetchedUrls base_url param s m pages
          = (List.range k).map (fun t =>
              pyReplace base_url (UrlPatternPaginator.placeholder param)
                (Nat.repr (s + t)))) := by
  constructor
  · intro hpos
    have h := scrapeLoop_reaches base_url param s m pages m hbase hm
      (Nat.le_refl m) (fun i hi => hpos i (by omega)) (Or.inl rfl) hstatus
      (m + 1) 1 (by omega) hm (by omega)
    simpa [fetchedUrls] using h
  · intro k hk1 hkm hpos hzero
    have h := scrapeLoop_reaches base_url param s m pages k hbase hk1 hkm
      hpos (Or.inr hzero) (fun i hi => hstatus i (by omega))
      (m + 1) 1 (by omega) hk1 (by omega)
    simpa [fetchedUrls] using h

/-- Witness for C6: base URL `http://x/p{page}`, start 2, `max_pages` 3; the
second fetched page yields zero records, so exactly pages 2 and 3 are
fetched. -/
theorem url_pattern_fetch_sequence_witness :
    fetchedUrls "http://x/p\x7bpage\x7d" "page" 2 3
        (fun i => ⟨200, if i = 1 then 0 else 5⟩)
      = ["http://x/p2", "http://x/p3"] := by
  have h := (url_pattern_fetch_sequence "http://x/p\x7bpage\x7d" "page" 2 3
      (fun i => ⟨200, if i = 1 then 0 else 5⟩) (by omega) (by decide)
      (fun i _ => by show (200 : Int) < 400; decide)).2
    2 (by omega) (by omega)
    (fun i hi => by
      have : i = 0 := by omega
      subst this
      show 0 < 5
      decide)
    (by show (0 : Nat) = 0; rfl)
  rw [h]
  decide

/-! ## `cwsf/config/watcher.py` — `ConfigWatcher._handle_raw_event`

The watcher's `_last_known_good` dict maps file paths to the most recent
validated config.  Handling an ADDED/MODIFIED event loads and validates the
file; the possible outcomes of `load_config` + `validate_config` are
enumerated by `LoadOutcome` (`otherError` is the final `except Exception`
branch, which only logs).  The handler returns the new `_last_known_good`
state and the events delivered to the callback. -/

/-- `ConfigEventType` from `cwsf/config/watcher.py`. -/
inductive ConfigEventType where
  | added
  | modified
  | removed
  | validated
  | rejected
deriving DecidableEq

/-- A `ConfigEvent` delivered to the watcher callback (errors as messages). -/
structure ConfigEvent where
  event_type : ConfigEventType
  file_path : String
  config : Option Dict
  errors : List String

/-- What loading + validating the file at the event's path does. -/
inductive LoadOutcome where
  | valid (config : Dict)
  | invalid (errors : List String)
  | parseError (msg : String)
  | permissionError
  | otherError

/-- Did the load or the validation fail (the handled failure modes:
invalid config, `ConfigParseError`/`FileNotFoundError`, `PermissionError`)? -/
def loadFails : LoadOutcome → Bool
  | LoadOutcome.invalid _ => true
  | LoadOutcome.parseError _ => true
  | LoadOutcome.permissionError => true
  | _ => false

/-- `ConfigWatcher._handle_raw_event`: REMOVED pops the last-known-good entry
and forwards the event; ADDED/MODIFIED validate and either store the config
and emit VALIDATED, or emit REJECTED leaving the stored state untouched (an
unexpected exception only logs). -/
def handle_raw_event (state : List (String × Dict)) (ev : ConfigEventType)
    (path : String) (outcome : LoadOutcome) :
    List (String × Dict) × List ConfigEvent :=
  if ev = ConfigEventType.removed then
    (delKey state path, [⟨ConfigEventType.removed, path, none, []⟩])
  else
    match outcome with
    | LoadOutcome.valid cfg =>
        (setKey state path cfg, [⟨ConfigEventType.validated, path, some cfg, []⟩])
    | LoadOutcome.invalid errs =>
        (state, [⟨ConfigEventType.rejected, path, none, errs⟩])
    | LoadOutcome.parseError msg =>
        (state, [⟨ConfigEventType.rejected, path, none, [msg]⟩])
    | LoadOutcome.permissionError =>
        (state, [⟨ConfigEventType.rejected, path, none, ["Permission denied"]⟩])
    | LoadOutcome.otherError => (state, [])

theorem lookupKey_delKey_ne {α : Type} (l : List (String × α)) (k p : String)
    (h : p ≠ k) : lookupKey (delKey l k) p = lookupKey l p := by
  induction l with
  | nil => rfl
  | cons kv rest ih =>
    obtain ⟨a, b⟩ := kv
    simp only [delKey]
    split
    · subst_vars
      simp [lookupKey, Ne.symm h]
    · simp only [lookupKey]
      split <;> simp [ih]

/-- C8: for a path with a retained last-known-good config, an ADDED/MODIFIED
event whose load or validation fails emits exactly one REJECTED event and
leaves the whole retained state unchanged; and the only event that can clear
the retained entry for the path is a REMOVED event for that very path. -/
theorem watcher_keeps_last_known_good (state : List (String × Dict))
    (path : String) (c : Dict)
    (hprior : lookupKey state path = some c) :
    (∀ (ev : ConfigEventType) (outcome : LoadOutcome),
      (ev = ConfigEventType.added ∨ ev = ConfigEventType.modified) →
      loadFails outcome = true →
      (∃ errs, (handle_raw_event state ev path outcome).2
        = [⟨ConfigEventType.rejected, path, none, errs⟩])
      ∧ (handle_raw_event state ev path outcome).1 = state)
    ∧ (∀ (ev' : ConfigEventType) (path' : String) (out' : LoadOutcome),
        lookupKey (handle_raw_event state ev' path' out').1 path = none →
        ev' = ConfigEventType.removed ∧ path' = path) := by
  constructor
  · intro ev outcome hev hfail
    have hne : ¬ (ev = ConfigEventType.removed) := by
      rcases hev with rfl | rfl <;> simp
    unfold handle_raw_event
    rw [if_neg hne]
    cases outcome with
    | valid cfg => simp [loadFails] at hfail
    | invalid errs => exact ⟨⟨errs, rfl⟩, rfl⟩
    | parseError msg => exact ⟨⟨[msg], rfl⟩, rfl⟩
    | permissionError => exact ⟨⟨["Permission denied"], rfl⟩, rfl⟩
    | otherError => simp [loadFails] at hfail
  · intro ev' path' out' hnone
    unfold handle_raw_event at hnone
    by_cases hev : ev' = ConfigEventType.removed
    · subst hev
      rw [if_pos rfl] at hnone
      dsimp only at hnone
      refine ⟨rfl, ?_⟩
      by_contra hne
      rw [lookupKey_delKey_ne state path' path (fun h => hne h.symm)] at hnone
      rw [hprior] at hnone
      exact Option.noConfusion hnone
    · rw [if_neg hev] at hnone
      exfalso
      cases out' with
      | valid cfg =>
        dsimp only at hnone
        by_cases hp : path = path'
        · subst hp
          rw [lookupKey_setKey_self] at hnone
          exact Option.noConfusion hnone
        · rw [lookupKey_setKey_ne state path path' cfg hp] at hnone
          · rw [hprior] at hnone
            exact Option.noConfusion hnone
      | invalid errs => dsimp only at hnone; rw [hprior] at hnone; exact Option.noConfusion hnone
      | parseError msg => dsimp only at hnone; rw [hprior] at hnone; exact Option.noConfusion hnone
      | permissionError => dsimp only at hnone; rw [hprior] at hnone; exact Option.noConfusion hnone
      | otherError => dsimp only at hnone; rw [hprior] at hnone; exact Option.noConfusion hnone

/-- Witness for C8: a path with a retained config survives a MODIFIED event
whose load raises `ConfigParseError`, and the callback receives REJECTED. -/
theorem watcher_keeps_last_known_good_witness :
    (handle_raw_event [("a.yaml", [("site_name", Value.str "s")])]
        ConfigEventType.modified "a.yaml" (LoadOutcome.parseError "bad")).1
      = [("a.yaml", [("site_name", Value.str "s")])]
    ∧ (handle_raw_event [("a.yaml", [("site_name", Value.str "s")])]
        ConfigEventType.modified "a.yaml" (LoadOutcome.parseError "bad")).2
      = [⟨ConfigEventType.rejected, "a.yaml", none, ["bad"]⟩] := by
  have h := (watcher_keeps_last_known_good
      [("a.yaml", [("site_name", Value.str "s")])] "a.yaml"
      [("site_name", Value.str "s")] rfl).1
    ConfigEventType.modified (LoadOutcome.parseError "bad") (Or.inr rfl) rfl
  exact ⟨h.2, rfl⟩

/-! ## `cwsf/engine/transforms.py` — `apply_transforms`

`TRANSFORMS` is a dict from transform names (strings) to transform functions;
a transform may raise (modelled as `Except Unit Value`).  `apply_transforms`
looks the configured name up with `TRANSFORMS.get(transform_key)` — a Python
dict lookup, which returns the function for a known string, `None` for any
other hashable key, and raises `TypeError` for an unhashable key (a list or a
dict).  A raise inside the transform function itself is caught and the value
kept; the `default` substitution then always runs last. -/

/-- A registered transform function: value and field config in, transformed
value out, or a raised exception. -/
abbrev TransformFn := Value → Dict → Except Unit Value

/-- Python truthiness of a decoded value (`if transform_key:`). -/
def truthy : Value → Bool
  | Value.null => false
  | Value.bool b => b
  | Value.int n => n ≠ 0
  | Value.float q => q ≠ 0
  | Value.str s => s ≠ ""
  | Value.list xs => !xs.isEmpty
  | Value.dict d => !d.isEmpty

/-- `TRANSFORMS.get(transform_key)` for an arbitrary decoded key: strings are
looked up in the registry, other hashable values are simply absent, and
unhashable keys (lists, dicts) raise `TypeError`. -/
def transformsGet (registry : String → Option TransformFn) :
    Value → Except Unit (Option TransformFn)
  | Value.str s => Except.ok (registry s)
  | Value.list _ => Except.error ()
  | Value.dict _ => Except.error ()
  | _ => Except.ok none

/-- `default_transform` from `cwsf/engine/transforms.py`: replace `None` or
`""` (element-wise on a list) by the configured `default`, if one is set. -/
def default_transform (value : Value) (field_config : Dict) : Value :=
  match lookupKey field_config "default" with
  | none => value
  | some default_val =>
      let applyDefault : Value → Value := fun val =>
        match val with
        | Value.null => default_val
        | Value.str s => if s = "" then default_val else val
        | _ => val
      match value with
      | Value.list xs => Value.list (xs.map applyDefault)
      | _ => applyDefault value

/-- `apply_transforms` from `cwsf/engine/transforms.py`: run the configured
transform (unknown name → warning only; a raise inside the transform →
caught, value kept; an unhashable transform key → `TypeError` propagates),
then always apply the `default` substitution last. -/
def apply_transforms (registry : String → Option TransformFn) (value : Value)
    (field_config : Dict) : Except Unit Value :=
  let step1 : Except Unit Value :=
    match lookupKey field_config "transform" with
    | none => Except.ok value
    | some tk =>
      if truthy tk then
        match transformsGet registry tk with
        | Except.error e => Except.error e
        | Except.ok none => Except.ok value
        | Except.ok (some fn) =>
            match fn value field_config with
            | Except.error _ => Except.ok value
            | Except.ok v' => Except.ok v'
      else Except.ok value
  match step1 with
  | Except.error e => Except.error e
  | Except.ok v1 =>
      Except.ok (if containsKey field_config "default"
        then default_transform v1 field_config else v1)

/-- C9 counterexample: with `field_config = {"transform": ["x"]}` the lookup
`TRANSFORMS.get(["x"])` raises `TypeError: unhashable type` outside the
`try`, so `apply_transforms` propagates an exception — it is not total on
every field configuration. -/
theorem apply_transforms_raises_on_unhashable_key :
    apply_transforms (fun _ => none) Value.null
        [("transform", Value.list [Value.str "x"])]
      = Except.error () := by
  rfl

/-- C9 (amended): for every registry, every value and every field
configuration whose `transform` entry (if present) is not a list or dict —
in particular any string, known or unknown, and configurations missing
`transform_pattern` or `cast_type` — `apply_transforms` never propagates an
exception; and when the configured transform function itself raises, the
value is left as it was before that transform and the `default` substitution
still runs afterwards. -/
theorem apply_transforms_total (registry : String → Option TransformFn)
    (value : Value) (field_config : Dict)
    (h : ∀ tk, lookupKey field_config "transform" = some tk →
      (match tk with
       | Value.list _ => False
       | Value.dict _ => False
       | _ => True)) :
    (∃ w, apply_transforms registry value field_config = Except.ok w)
    ∧ (∀ tk fn, lookupKey field_config "transform" = some tk →
        truthy tk = true →
        transformsGet registry tk = Except.ok (some fn) →
        fn value field_config = Except.error () →
        apply_transforms registry value field_config
          = Except.ok (if containsKey field_config "default"
              then default_transform value field_config else value)) := by
  constructor
  · unfold apply_transforms
    cases htk : lookupKey field_config "transform" with
    | none => exact ⟨_, rfl⟩
    | some tk =>
      have htk' := h tk htk
      dsimp only
      by_cases ht : truthy tk = true
      · rw [if_pos ht]
        cases tk with
        | list xs => exact absurd htk' (by simp)
        | dict d => exact absurd htk' (by simp)
        | str s =>
          simp only [transformsGet]
          cases hr : registry s with
          | none => exact ⟨_, rfl⟩
          | some fn =>
            dsimp only
            cases hfn : fn value field_config with
            | error e => exact ⟨_, rfl⟩
            | ok v' => exact ⟨_, rfl⟩
        | null => exact ⟨_, rfl⟩
        | bool b => exact ⟨_, rfl⟩
        | int n => exact ⟨_, rfl⟩
        | float q => exact ⟨_, rfl⟩
      · rw [if_neg ht]
        exact ⟨_, rfl⟩
  · intro tk fn htk ht hget hraise
    unfold apply_transforms
    rw [htk]
    dsimp only
    rw [if_pos ht, hget]
    dsimp only
    rw [hraise]

/-- Witness for C9: a registered transform named `boom` that always raises is
caught; the original string survives and the default substitution runs (and
leaves a non-empty string alone). -/
theorem apply_transforms_total_witness :
    apply_transforms
        (fun n => if n = "boom" then some (fun _ _ => Except.error ()) else none)
        (Value.str "v")
        [("transform", Value.str "boom"), ("default", Value.str "d")]
      = Except.ok (Value.str "v") := by
  have h := (apply_transforms_total
      (fun n => if n = "boom" then some (fun _ _ => Except.error ()) else none)
      (Value.str "v")
      [("transform", Value.str "boom"), ("default", Value.str "d")]
      (fun tk htk => by
        cases htk
        trivial)).2
    (Value.str "boom") (fun _ _ => Except.error ()) rfl rfl rfl rfl
  rw [h]
  rfl
